import Mathlib

/-!
Verification development for the schema-driven web-data extraction pipeline
(`Parser` repository).  The Python sources are shallowly embedded:

* Python `str` is modelled as `List Char` (`PyStr`); the relevant pieces of
  Python's string API (`strip`, `lower`, `split`, `rfind`, `replace`, slices)
  are re-implemented on that type.
* Python `float` is modelled as `ℚ` (exact where IEEE doubles round; the
  decimal literals appearing in the properties are representable on both
  sides, so the modelled equalities agree with the Python ones).
* Values flowing through the transformation library are a tagged union
  `TValue`; Python `None` is `Option.none` one level up.
* Calls into the Python standard library / third-party libraries
  (`urllib`, `re`, `json`, `datetime`, `html`, selectolax/lxml selector
  engines, SQLAlchemy) are modelled as explicit parameters: a `PyLib`
  record of stdlib functions and selector-evaluation oracles attached to
  document nodes.  Everything written in the repository itself
  (control flow, validation, counters, state updates) is embedded directly.
* Wall-clock timestamps are threaded as explicit `ℕ` parameters; fields
  that only record timing metrics are not load-bearing for any claim.
-/

namespace ParserPipeline

/-- Python strings, modelled as lists of characters. -/
abbrev PyStr := List Char

/-- Whitespace recognised by Python's default `str.strip` / `str.split`
(ASCII subset; the sources never strip non-ASCII whitespace). -/
def isPySpace (c : Char) : Bool :=
  c == ' ' || c == '\t' || c == '\n' || c == '\r' || c == '\x0b' || c == '\x0c'

/-- Python `str.strip()` with no argument: drop leading and trailing
whitespace. -/
def pyStrip (s : PyStr) : PyStr :=
  ((s.dropWhile isPySpace).reverse.dropWhile isPySpace).reverse

/-- Python `str.lower()` (ASCII case mapping; the sources only compare
ASCII transformation names case-insensitively). -/
def pyLower (s : PyStr) : PyStr := s.map Char.toLower

/-- Python `str.upper()` (ASCII case mapping). -/
def pyUpper (s : PyStr) : PyStr := s.map Char.toUpper

/-- Python `str.capitalize()`: first character upper-cased, the rest
lower-cased. -/
def pyCapitalize (s : PyStr) : PyStr :=
  match s with
  | [] => []
  | c :: r => Char.toUpper c :: pyLower r

/-- Helper for `pyTitle`: `prevAlpha` records whether the previous character
was alphabetic. -/
def pyTitleGo : Bool → PyStr → PyStr
  | _, [] => []
  | prevAlpha, c :: r =>
      (if c.isAlpha then (if prevAlpha then c.toLower else c.toUpper) else c)
        :: pyTitleGo c.isAlpha r

/-- Python `str.title()`: capitalise the first letter of every
alphabetic run. -/
def pyTitle (s : PyStr) : PyStr := pyTitleGo false s

/-- Python `str.replace(old, new)` where both arguments are single
characters (the only character-level uses in `transformers.py`). -/
def pyReplaceCharWith (old new : Char) (s : PyStr) : PyStr :=
  s.map (fun c => if c == old then new else c)

/-- Python `str.replace(old, "")` for a single character `old`. -/
def pyRemoveChar (old : Char) (s : PyStr) : PyStr :=
  s.filter (fun c => c != old)

/-- Python `str.rfind(c)` for a single-character needle: highest index of
`c`, or `-1` when absent. -/
def pyRfind (c : Char) : PyStr → ℤ
  | [] => -1
  | x :: xs =>
      let r := pyRfind c xs
      if 0 ≤ r then r + 1 else if x == c then 0 else -1

/-- Python `str.split(c)` for a single-character separator (no maxsplit):
always returns at least one (possibly empty) segment. -/
def pySplitChar (c : Char) : PyStr → List PyStr
  | [] => [[]]
  | x :: xs =>
      let r := pySplitChar c xs
      if x == c then [] :: r
      else
        match r with
        | [] => [[x]]
        | h :: t => (x :: h) :: t

/-- Python `str.split(c, 1)`: split at the first occurrence only. -/
def pySplitOnce (c : Char) : PyStr → List PyStr
  | [] => [[]]
  | x :: xs =>
      if x == c then [[], xs]
      else
        match pySplitOnce c xs with
        | [] => [[x]]
        | h :: t => (x :: h) :: t

/-- Python `str.split(c, 2)`: at most two splits, three segments. -/
def pySplitTwice (c : Char) (s : PyStr) : List PyStr :=
  match pySplitOnce c s with
  | h :: rest :: [] => h :: pySplitOnce c rest
  | other => other

/-- Python `str.rsplit(c, 1)` returning the pair (before, after) of the
last occurrence; when `c` is absent the whole string is the first
component (callers guard on membership). -/
def pyRsplitLast (c : Char) : PyStr → PyStr × PyStr
  | [] => ([], [])
  | x :: xs =>
      if c ∈ xs then
        let (a, b) := pyRsplitLast c xs
        (x :: a, b)
      else if x == c then ([], xs)
      else (x :: xs, [])

/-- Python `s.startswith(p)`. -/
def pyStartsWith (p s : PyStr) : Bool :=
  match p, s with
  | [], _ => true
  | _ :: _, [] => false
  | a :: p, b :: s => a == b && pyStartsWith p s

/-- Python substring containment `needle in haystack`. -/
def pyContainsSub (needle s : PyStr) : Bool :=
  match s with
  | [] => pyStartsWith needle []
  | _ :: rest => pyStartsWith needle s || pyContainsSub needle rest

/-- Python whitespace words: `str.split()` with no argument (runs of
whitespace separate, empty segments are dropped). -/
def pyWords (s : PyStr) : List PyStr :=
  (pySplitChars s).filter (fun w => !w.isEmpty)
where
  pySplitChars (s : PyStr) : List PyStr :=
    match s with
    | [] => [[]]
    | x :: xs =>
        let r := pySplitChars xs
        if isPySpace x then [] :: r
        else
          match r with
          | [] => [[x]]
          | h :: t => (x :: h) :: t

/-- Python `" ".join(words)`. -/
def pyJoinSpace (ws : List PyStr) : PyStr := List.intercalate [' '] ws

/-- Numeric value of a digit string (most significant first). -/
def digitsVal (ds : PyStr) : ℕ :=
  ds.foldl (fun a c => 10 * a + (c.toNat - 48)) 0

/-- Python `int(s)` (base 10): optional sign, then a non-empty digit run,
with surrounding whitespace allowed; `none` models `ValueError`. -/
def pyInt (s0 : PyStr) : Option ℤ :=
  let s := pyStrip s0
  let (sign, s) :=
    match s with
    | '-' :: t => ((-1 : ℤ), t)
    | '+' :: t => ((1 : ℤ), t)
    | t => ((1 : ℤ), t)
  if s ≠ [] ∧ s.all Char.isDigit then some (sign * (digitsVal s : ℤ)) else none

/-- Mantissa of a Python float literal: `digits`, `digits.digits`,
`.digits` or `digits.` — at most one dot and at least one digit. -/
def pyFloatMantissa (s : PyStr) : Option ℚ :=
  match pySplitChar '.' s with
  | [i] => if i ≠ [] ∧ i.all Char.isDigit then some (digitsVal i : ℚ) else none
  | [i, f] =>
      if (i ≠ [] ∨ f ≠ []) ∧ i.all Char.isDigit ∧ f.all Char.isDigit then
        some ((digitsVal i : ℚ) + (digitsVal f : ℚ) / (10 : ℚ) ^ f.length)
      else none
  | _ => none

/-- Python `float(s)` on finite decimal literals: optional surrounding
whitespace, optional sign, mantissa, optional `e`/`E` exponent.
`none` models `ValueError`.  (`inf`/`nan` literals are not representable
in `ℚ` and cannot be produced by the numeric-cleaning step that feeds
this function in the sources.) -/
def pyFloatParse (s0 : PyStr) : Option ℚ :=
  let s := pyLower (pyStrip s0)
  let (sign, s) :=
    match s with
    | '-' :: t => ((-1 : ℚ), t)
    | '+' :: t => ((1 : ℚ), t)
    | t => ((1 : ℚ), t)
  match pySplitChar 'e' s with
  | [m] => (pyFloatMantissa m).map (fun q => sign * q)
  | [m, e] =>
      match pyFloatMantissa m, pyInt e with
      | some q, some ex => some (sign * q * (10 : ℚ) ^ ex)
      | _, _ => none
  | _ => none

/-- Python `int(x)` on a float: truncation toward zero. -/
def pyTruncQ (q : ℚ) : ℤ := q.num / (q.den : ℤ)

/-- Digits of a natural number, as a Python string. -/
def natToPyStr (n : ℕ) : PyStr := (toString n).data

/-- Python `str(i)` for an integer. -/
def intToPyStr (n : ℤ) : PyStr :=
  if n < 0 then '-' :: natToPyStr n.natAbs else natToPyStr n.natAbs

end ParserPipeline

namespace ParserPipeline

/-- Python slice `s[start:end]` with negative-index and clamping
semantics (`end = none` means "to the end"). -/
def pySlice (s : PyStr) (st : ℤ) (en : Option ℤ) : PyStr :=
  let n : ℤ := s.length
  let conv : ℤ → ℕ := fun i => ((if i < 0 then max 0 (n + i) else min i n).toNat)
  let a := conv st
  let b := match en with | none => s.length | some e => conv e
  (s.take b).drop a

/-- Tagged union for the dynamically-typed values the transformation
library and extractor pass around (`Any` in the sources).  Python `None`
is represented as `Option.none` at the use sites; JSON nulls inside
containers are `Option.none` entries. -/
inductive TValue where
  | vstr (s : PyStr)
  | vnum (q : ℚ)
  | vint (n : ℤ)
  | vbool (b : Bool)
  | vlist (xs : List (Option TValue))
  | vdict (xs : List (PyStr × Option TValue))

/-- Python truthiness of a `TValue`. -/
def pyTruthy : TValue → Bool
  | .vstr s => !s.isEmpty
  | .vnum q => q != 0
  | .vint n => n != 0
  | .vbool b => b
  | .vlist xs => !xs.isEmpty
  | .vdict xs => !xs.isEmpty

/-- Decimal rendering of a rational, used to model Python `str(float)`.
Exact when the value is a finite decimal (every float produced by the
embedded transformation pipeline is); a `/`-rendering is used otherwise.
No claim depends on the precise text. -/
def qToPyStr (q : ℚ) : PyStr :=
  let sign : PyStr := if q < 0 then ['-'] else []
  let a := |q|
  let ip := a.num / (a.den : ℤ)
  let frac := a - (ip : ℚ)
  let k := (List.range 18).find? (fun k => ((frac * (10 : ℚ) ^ k).den == 1))
  match k with
  | some k =>
      if k = 0 then sign ++ natToPyStr ip.natAbs ++ ('.' :: '0' :: [])
      else
        let ds := natToPyStr (frac * (10 : ℚ) ^ k).num.natAbs
        let pad := List.replicate (k - ds.length) '0'
        sign ++ natToPyStr ip.natAbs ++ '.' :: (pad ++ ds)
  | none => sign ++ intToPyStr q.num ++ '/' :: natToPyStr q.den

/-- Python `str(value)`.  Faithful on scalars; list/dict renderings use
`str` quoting approximations (no claim stringifies containers). -/
def pyToStr : TValue → PyStr
  | .vstr s => s
  | .vnum q => qToPyStr q
  | .vint n => intToPyStr n
  | .vbool b => if b then ('T' :: "rue".data) else ('F' :: "alse".data)
  | .vlist xs =>
      '[' :: (List.intercalate (',' :: ' ' :: [])
        (xs.attach.map (fun p =>
          match p with
          | ⟨none, _⟩ => "None".data
          | ⟨some w, _⟩ => pyToStr w))) ++ [']']
  | .vdict xs =>
      '(' :: (List.intercalate (',' :: ' ' :: [])
        (xs.attach.map (fun p =>
          match p with
          | ⟨(k, none), _⟩ => k ++ ':' :: ' ' :: "None".data
          | ⟨(k, some w), _⟩ => k ++ ':' :: ' ' :: pyToStr w))) ++ [')']
decreasing_by
  · rename_i hmem
    have h := List.sizeOf_lt_of_mem hmem
    simp only [Option.some.sizeOf_spec] at h
    simp only [TValue.vlist.sizeOf_spec]
    omega
  · rename_i hmem
    have h := List.sizeOf_lt_of_mem hmem
    simp only [Prod.mk.sizeOf_spec, Option.some.sizeOf_spec] at h
    simp only [TValue.vdict.sizeOf_spec]
    omega

/-- Date/time value returned by the modelled `datetime.strptime`. -/
structure DateTimeM where
  year : ℕ
  month : ℕ
  day : ℕ
  hour : ℕ
  minute : ℕ
  second : ℕ

/-- External Python library functions the repository calls.  They are
threaded as parameters (the embedding proves nothing about their
internals). -/
structure PyLib where
  urljoin : PyStr → PyStr → PyStr
  urlNetloc : PyStr → Option PyStr
  urlSetParam : PyStr → PyStr → ℤ → PyStr
  strptime : PyStr → PyStr → Option DateTimeM
  unescapeHtml : PyStr → PyStr
  jsonLoads : PyStr → Option TValue
  reSearchGroups : PyStr → PyStr → Option (PyStr × List (Option PyStr))
  reMatch : PyStr → PyStr → Bool

end ParserPipeline

namespace ParserPipeline

/-! Embedding of `src/uca/common/transformers.py`. -/

/-- Character class kept by the numeric-cleaning regex
`re.sub(r"[^\d.,\-]", "", value)` in `_extract_number`. -/
def keepNumChar (c : Char) : Bool :=
  c.isDigit || c == '.' || c == ',' || c == '-'

/-- The cleaning step of `_extract_number`: drop every character that is
not a digit, `.`, `,` or `-`. -/
def cleanNumeric (s : PyStr) : PyStr := s.filter keepNumChar

/-- The thousand/decimal separator disambiguation of `_extract_number`
(transformers.py lines 153-167), applied to the cleaned string. -/
def normalizeSeparators (s : PyStr) : PyStr :=
  if ',' ∈ s ∧ '.' ∈ s then
    if pyRfind ',' s > pyRfind '.' s then
      pyReplaceCharWith ',' '.' (pyRemoveChar '.' s)
    else
      pyRemoveChar ',' s
  else if ',' ∈ s then
    if ((pySplitChar ',' s).getLastD []).length = 2 then
      pyReplaceCharWith ',' '.' s
    else
      pyRemoveChar ',' s
  else s

/-- `_extract_number` from transformers.py: empty/falsy input gives
`None`; otherwise clean, disambiguate separators, then `float(...)`
(`None` on `ValueError`). -/
def extract_number (s : PyStr) : Option ℚ :=
  if s = [] then none
  else pyFloatParse (normalizeSeparators (cleanNumeric s))

/-- Currency-symbol table of `_extract_price`, in source (insertion)
order. -/
def currencySymbols : List (PyStr × PyStr) :=
  [("$".data, "USD".data), ("€".data, "EUR".data), ("£".data, "GBP".data),
   ("¥".data, "JPY".data), ("₽".data, "RUB".data), ("₴".data, "UAH".data),
   ("zł".data, "PLN".data), ("kr".data, "SEK".data)]

/-- `_extract_price`: detect the first currency symbol contained in the
value, extract the amount, return an amount/currency dict (or `None`). -/
def extract_price (s : PyStr) : Option TValue :=
  if s = [] then none
  else
    let currency : Option PyStr :=
      (currencySymbols.find? (fun p => pyContainsSub p.1 s)).map Prod.snd
    match extract_number s with
    | some q =>
        some (.vdict [("amount".data, some (.vnum q)),
                      ("currency".data, currency.map .vstr)])
    | none => none

/-- Truthy token set of `_to_bool`. -/
def toBoolTrue : List PyStr :=
  ["true".data, "yes".data, "1".data, "on".data, "да".data, "есть".data,
   "в наличии".data, "in stock".data]

/-- Falsy token set of `_to_bool`. -/
def toBoolFalse : List PyStr :=
  ["false".data, "no".data, "0".data, "off".data, "нет".data,
   "отсутствует".data, "out of stock".data]

/-- `_to_bool`: closed truthy/falsy token sets, then `bool(value.strip())`. -/
def to_bool (s : PyStr) : Bool :=
  let lower := pyStrip (pyLower s)
  if lower ∈ toBoolTrue then true
  else if lower ∈ toBoolFalse then false
  else !(pyStrip s).isEmpty

/-- The fixed date-format list of `_parse_date`. -/
def dateFormats : List PyStr :=
  ["%Y-%m-%d".data, "%d.%m.%Y".data, "%d/%m/%Y".data, "%m/%d/%Y".data,
   "%d-%m-%Y".data, "%Y/%m/%d".data, "%B %d, %Y".data, "%b %d, %Y".data,
   "%d %B %Y".data, "%d %b %Y".data]

/-- The fixed datetime-format list of `_parse_datetime`. -/
def datetimeFormats : List PyStr :=
  ["%Y-%m-%dT%H:%M:%S".data, "%Y-%m-%dT%H:%M:%SZ".data,
   "%Y-%m-%d %H:%M:%S".data, "%d.%m.%Y %H:%M".data, "%d/%m/%Y %H:%M:%S".data]

/-- Zero-padded rendering of a natural number to a fixed width. -/
def padNat (width n : ℕ) : PyStr :=
  let ds := natToPyStr n
  List.replicate (width - ds.length) '0' ++ ds

/-- `strftime("%Y-%m-%d")` on a parsed date. -/
def strftimeDate (d : DateTimeM) : PyStr :=
  padNat 4 d.year ++ '-' :: (padNat 2 d.month ++ '-' :: padNat 2 d.day)

/-- `datetime.isoformat()` (second precision, as produced by the
modelled formats). -/
def isoformatDT (d : DateTimeM) : PyStr :=
  strftimeDate d ++ 'T' ::
    (padNat 2 d.hour ++ ':' :: (padNat 2 d.minute ++ ':' :: padNat 2 d.second))

/-- `_parse_date`: try the fixed formats in order via `strptime`; on the
first success reformat as ISO date, otherwise return the input. -/
def parse_date (lib : PyLib) (s : PyStr) : PyStr :=
  match (dateFormats.filterMap (fun fmt => lib.strptime (pyStrip s) fmt)).head? with
  | some d => strftimeDate d
  | none => s

/-- `_parse_datetime`: like `_parse_date` with the datetime formats and
`isoformat()` rendering. -/
def parse_datetime (lib : PyLib) (s : PyStr) : PyStr :=
  match (datetimeFormats.filterMap (fun fmt => lib.strptime (pyStrip s) fmt)).head? with
  | some d => isoformatDT d
  | none => s

/-- `_apply_regex`: `re.search` is a `PyLib` oracle returning group 0 and
the capture groups of the first match; out-of-range or unmatched groups
give `None` (the source catches every exception and returns `None`). -/
def apply_regex (lib : PyLib) (s pattern : PyStr) (group : ℤ) : Option PyStr :=
  match lib.reSearchGroups pattern s with
  | none => none
  | some (g0, gs) =>
      if group = 0 then some g0
      else if group < 0 then none
      else match gs.get? (group.toNat - 1) with
           | some g => g
           | none => none

/-- `re.sub(r"<[^>]+>", "", s)` from the `strip_html` transform,
implemented directly for this fixed pattern.  The optional buffer holds
the characters seen since an unclosed `<` (in reverse). -/
def stripHtmlGo : Option PyStr → PyStr → PyStr
  | none, [] => []
  | none, '<' :: rest => stripHtmlGo (some []) rest
  | none, c :: rest => c :: stripHtmlGo none rest
  | some buf, [] => '<' :: buf.reverse
  | some buf, '>' :: rest =>
      if buf = [] then '<' :: '>' :: stripHtmlGo none rest
      else stripHtmlGo none rest
  | some buf, c :: rest => stripHtmlGo (some (c :: buf)) rest

/-- The `strip_html` transform. -/
def strip_html (s : PyStr) : PyStr := stripHtmlGo none s

/-- Worker for `pyReplaceSub`; when a non-empty needle matches at the
head, the matched characters are dropped (`rest.drop (old.length - 1)`
is `(c :: rest).drop old.length` for non-empty `old`). -/
def pyReplaceSubGo (old new : PyStr) : PyStr → PyStr
  | [] => []
  | c :: rest =>
      if old ≠ [] ∧ pyStartsWith old (c :: rest) then
        new ++ pyReplaceSubGo old new (rest.drop (old.length - 1))
      else c :: pyReplaceSubGo old new rest
termination_by s => s.length
decreasing_by
  · simp
    omega
  · simp

/-- Python `str.replace(old, new)` for arbitrary strings (used by the
`replace:old:new` transform).  The empty-needle case inserts `new`
around every character, as Python does. -/
def pyReplaceSub (old new : PyStr) (s : PyStr) : PyStr :=
  if old = [] then
    new ++ (s.map (fun c => c :: new)).flatten
  else pyReplaceSubGo old new s

/-- `_apply_single_transform` from transformers.py: `None` passes
through, the transform name is matched case-insensitively, unknown
names are a no-op.  The `regex:`/`replace:`/`substr:` families parse
their arguments from the original (case-preserved) transform string.
(Integer argument parsing in `substr:`/`regex:` raises `ValueError` in
Python for malformed arguments; those corners return the value
unchanged here and are exercised by no claim.) -/
def apply_single_transform (lib : PyLib) (value : Option TValue)
    (transform : PyStr) (base_url : PyStr) : Option TValue :=
  match value with
  | none => none
  | some v =>
    let str_value : PyStr := pyToStr v
    let tl := pyLower transform
    if tl = ("trim".data) then some (.vstr (pyStrip str_value))
    else if tl = ("lowercase".data) then some (.vstr (pyLower str_value))
    else if tl = ("uppercase".data) then some (.vstr (pyUpper str_value))
    else if tl = ("capitalize".data) then some (.vstr (pyCapitalize str_value))
    else if tl = ("title".data) then some (.vstr (pyTitle str_value))
    else if tl = ("normalize_whitespace".data) then
      some (.vstr (pyJoinSpace (pyWords str_value)))
    else if tl = ("remove_newlines".data) then
      some (.vstr (pyRemoveChar '\r' (pyReplaceCharWith '\n' ' ' str_value)))
    else if tl = ("extract_number".data) then
      (extract_number str_value).map .vnum
    else if tl = ("extract_int".data) then
      (extract_number str_value).map (fun q => .vint (pyTruncQ q))
    else if tl = ("extract_float".data) then
      (extract_number str_value).map .vnum
    else if tl = ("absolute_url".data) then
      if base_url ≠ [] ∧
          !(pyStartsWith ("http://".data) str_value
            || pyStartsWith ("https://".data) str_value
            || pyStartsWith ("//".data) str_value) then
        some (.vstr (lib.urljoin base_url str_value))
      else some (.vstr str_value)
    else if tl = ("extract_domain".data) then
      match lib.urlNetloc str_value with
      | some netloc => some (.vstr netloc)
      | none => some (.vstr str_value)
    else if tl = ("parse_date".data) then some (.vstr (parse_date lib str_value))
    else if tl = ("parse_datetime".data) then
      some (.vstr (parse_datetime lib str_value))
    else if tl = ("strip_html".data) then some (.vstr (strip_html str_value))
    else if tl = ("decode_entities".data) then
      some (.vstr (lib.unescapeHtml str_value))
    else if tl = ("extract_price".data) then extract_price str_value
    else if tl = ("to_bool".data) then some (.vbool (to_bool str_value))
    else if tl = ("parse_json".data) then
      match lib.jsonLoads str_value with
      | some j => some j
      | none => some (.vstr str_value)
    else if pyStartsWith ("regex:".data) tl then
      match pySplitTwice ':' transform with
      | _ :: pattern :: rest =>
          let group : ℤ :=
            match rest with
            | [] => 0
            | g :: _ => (pyInt g).getD 0
          (apply_regex lib str_value pattern group).map .vstr
      | _ => some v
    else if pyStartsWith ("replace:".data) tl then
      match pySplitTwice ':' transform with
      | _ :: a :: b :: _ => some (.vstr (pyReplaceSub a b str_value))
      | _ => some v
    else if pyStartsWith ("substr:".data) tl then
      match pySplitChar ':' transform with
      | _ :: p1 :: rest =>
          let st : ℤ := if p1 = [] then 0 else (pyInt p1).getD 0
          let en : Option ℤ :=
            match rest with
            | [] => none
            | p2 :: _ => if p2 = [] then none else some ((pyInt p2).getD 0)
          some (.vstr (pySlice str_value st en))
      | _ => some v
    else some v

/-- `apply_transformations` from transformers.py: `None` passes through,
otherwise the transforms are applied left to right. -/
def apply_transformations (lib : PyLib) (value : Option TValue)
    (transformations : List PyStr) (base_url : PyStr) : Option TValue :=
  match value with
  | none => none
  | some v =>
      transformations.foldl
        (fun acc t => apply_single_transform lib acc t base_url) (some v)

end ParserPipeline

namespace ParserPipeline

/-! Embedding of the schema data model
(`src/shared/models/parsing_schema.py`) and of the extraction core
(`src/uca/common/extractor.py`). -/

/-- `FieldType` enum. -/
inductive FieldTypeM where
  | stringT | integerT | floatT | booleanT | datetimeT | urlT | listT | jsonT
deriving DecidableEq

/-- `ExtractionMethod` enum. -/
inductive MethodM where
  | css | xpath | regex | json_path
deriving DecidableEq

/-- `FieldDefinition` (the fields the extraction core reads). -/
structure FieldDefM where
  name : PyStr
  type : FieldTypeM
  method : MethodM
  selector : PyStr
  attr : Option PyStr
  required : Bool
  defaultVal : Option PyStr
  transformations : List PyStr
  validation_regex : Option PyStr
  fallback_selectors : List PyStr

/-- `PaginationRule` (the fields the workers read). -/
structure PaginationRuleM where
  ptype : PyStr
  selector : Option PyStr
  param_name : Option PyStr
  param_start : ℤ
  param_step : ℤ
  max_pages : ℕ
  stop_selector : Option PyStr
  scroll_delay_ms : ℕ

/-- `ParsingSchema` (the fields the extraction core and workers read). -/
structure ParsingSchemaM where
  schema_id : PyStr
  version : PyStr
  source_id : PyStr
  item_container : Option PyStr
  fields : List FieldDefM
  min_fields_required : ℕ
  pagination : Option PaginationRuleM
  request_headers : List (PyStr × PyStr)

/-- A selector-resolvable node of the parsed HTML document.  The
selector engines behind `_extract_with_selector` (selectolax CSS, lxml
XPath, `re` over the node source, embedded-JSON paths — extractor.py
lines 112-252) are third-party machinery and are modelled as the node's
evaluation oracle `evalSel`; `attrs` exposes the node's own HTML
attributes (read by the pagination helpers). -/
structure SelNode where
  evalSel : MethodM → PyStr → Option PyStr → Option TValue
  attrs : List (PyStr × Option PyStr)

/-- A parsed HTML document: `cssN` models `tree.css(...)` (used for
`item_container` roots and pagination elements) and `rootNode` the
whole-document node. -/
structure HtmlTree where
  cssN : PyStr → List SelNode
  rootNode : SelNode

/-- `element.attributes.get(name)` / lxml `element.get(name)`: missing
attributes and attributes stored as `None` are indistinguishable. -/
def attrGet (attrs : List (PyStr × Option PyStr)) (name : PyStr) : Option PyStr :=
  match attrs.find? (fun p => p.1 = name) with
  | some p => p.2
  | none => none

/-- `DataExtractor._extract_with_selector`: dispatch on the method; any
exception inside the engines yields `None` (folded into the oracle). -/
def extract_with_selector (node : SelNode) (method : MethodM)
    (selector : PyStr) (attr : Option PyStr) : Option TValue :=
  node.evalSel method selector attr

/-- First hit of the fallback-selector loop in
`DataExtractor._extract_field`: try selectors in order, first non-`None`
wins. -/
def firstSelectorHit (node : SelNode) (method : MethodM)
    (attr : Option PyStr) : List PyStr → Option TValue
  | [] => none
  | s :: rest =>
      match extract_with_selector node method s attr with
      | some v => some v
      | none => firstSelectorHit node method attr rest

/-- `DataExtractor._extract_field` (extractor.py lines 98-110): primary
selector first; only when it yields `None` and `fallback_selectors` is
non-empty are the fallbacks consulted in order. -/
def extract_field (node : SelNode) (f : FieldDefM) : Option TValue :=
  let value := extract_with_selector node f.method f.selector f.attr
  if value.isNone && !f.fallback_selectors.isEmpty then
    firstSelectorHit node f.method f.attr f.fallback_selectors
  else value

/-- The selectors `_extract_field` actually evaluates, in evaluation
order (mirrors the control flow of `extract_field`): the primary, then —
only if the primary yielded `None` — each fallback up to and including
the first hit. -/
def consultedSelectors (node : SelNode) (f : FieldDefM) : List PyStr :=
  f.selector ::
    (if (extract_with_selector node f.method f.selector f.attr).isNone
        && !f.fallback_selectors.isEmpty then
      consultedGo f.fallback_selectors
    else [])
where
  consultedGo : List PyStr → List PyStr
    | [] => []
    | s :: rest =>
        match extract_with_selector node f.method s f.attr with
        | some _ => [s]
        | none => s :: consultedGo rest

/-- `_convert_type` (extractor.py lines 254-303): `None` passes through;
conversion failures (`ValueError`/`TypeError`) return the value
unchanged.  Python `bool` is a subclass of `int`, so booleans take the
`isinstance(value, (int, float))` branches. -/
def convert_type (lib : PyLib) (value : Option TValue)
    (t : FieldTypeM) : Option TValue :=
  match value with
  | none => none
  | some v =>
    match t with
    | .stringT => some (.vstr (pyToStr v))
    | .integerT =>
        match v with
        | .vint n => some (.vint n)
        | .vnum q => some (.vint (pyTruncQ q))
        | .vbool b => some (.vint (if b then 1 else 0))
        | _ =>
            match pyFloatParse (pyRemoveChar ' ' (pyRemoveChar ',' (pyToStr v))) with
            | some q => some (.vint (pyTruncQ q))
            | none => some v
    | .floatT =>
        match v with
        | .vnum q => some (.vnum q)
        | .vint n => some (.vnum (n : ℚ))
        | .vbool b => some (.vnum (if b then 1 else 0))
        | _ =>
            match pyFloatParse (pyRemoveChar ' ' (pyReplaceCharWith ',' '.' (pyToStr v))) with
            | some q => some (.vnum q)
            | none => some v
    | .booleanT =>
        match v with
        | .vbool b => some (.vbool b)
        | _ =>
            some (.vbool
              (pyLower (pyToStr v) ∈ ["true".data, "yes".data, "1".data, "да".data]))
    | .urlT => some (.vstr (pyToStr v))
    | .datetimeT => some (.vstr (pyToStr v))
    | .listT =>
        match v with
        | .vlist xs => some (.vlist xs)
        | _ => some (.vlist [some v])
    | .jsonT =>
        match v with
        | .vdict xs => some (.vdict xs)
        | .vlist xs => some (.vlist xs)
        | _ =>
            match lib.jsonLoads (pyToStr v) with
            | some j => some j
            | none => some v

/-- Records are Python dicts: field name to (possibly `None`) value. -/
abbrev RecordT := List (PyStr × Option TValue)

/-- Python `dict[k] = v`: replace in place when the key exists, else
append. -/
def dictInsert (m : RecordT) (k : PyStr) (v : Option TValue) : RecordT :=
  match m with
  | [] => [(k, v)]
  | (k', v') :: rest =>
      if k' = k then (k', v) :: rest else (k', v') :: dictInsert rest k v

/-- Python `record.get(name)`: a missing key and a key stored with
`None` are both `None`. -/
def recordGet (r : RecordT) (name : PyStr) : Option TValue :=
  match r.find? (fun p => p.1 = name) with
  | some p => p.2
  | none => none

/-- The per-field value pipeline inside `DataExtractor._extract_record`
(extractor.py lines 65-94): extract, transform, coerce, regex-validate
(replacing with the default on failure; skipped on falsy values or a
falsy pattern), then fall back to the default if still `None`. -/
def fieldValue (lib : PyLib) (base_url : PyStr) (node : SelNode)
    (f : FieldDefM) : Option TValue :=
  let value := extract_field node f
  let value :=
    match value with
    | none => none
    | some v =>
        let v1 := apply_transformations lib (some v) f.transformations base_url
        let v2 := convert_type lib v1 f.type
        match f.validation_regex, v2 with
        | some rx, some vv =>
            if rx ≠ [] ∧ pyTruthy vv ∧ !(lib.reMatch rx (pyToStr vv)) then
              f.defaultVal.map .vstr
            else some vv
        | _, _ => v2
  match value with
  | none => f.defaultVal.map .vstr
  | some v => some v

/-- `DataExtractor._extract_record` (extractor.py lines 61-96): build
the record dict field by field in declaration order. -/
def extract_record (lib : PyLib) (schema : ParsingSchemaM) (base_url : PyStr)
    (node : SelNode) : RecordT :=
  schema.fields.foldl
    (fun record f => dictInsert record f.name (fieldValue lib base_url node f))
    []

/-- `DataExtractor._validate_record` (extractor.py lines 305-320):
count non-null required fields; reject when below
`min_fields_required`, then reject when any required field is null. -/
def validate_record (schema : ParsingSchemaM) (record : RecordT) : Bool :=
  let required_fields := schema.fields.filter (fun f => f.required)
  let filled_fields :=
    (required_fields.filter (fun f => (recordGet record f.name).isSome)).length
  if filled_fields < schema.min_fields_required then false
  else required_fields.all (fun f => (recordGet record f.name).isSome)

/-- The container loop of `DataExtractor.extract`: extract a record per
container node, keeping those that validate. -/
def extractLoop (lib : PyLib) (schema : ParsingSchemaM) (base_url : PyStr) :
    List SelNode → List RecordT
  | [] => []
  | n :: rest =>
      let record := extract_record lib schema base_url n
      if validate_record schema record then
        record :: extractLoop lib schema base_url rest
      else extractLoop lib schema base_url rest

/-- `DataExtractor.extract` (extractor.py lines 22-59): with an
`item_container` every matching node is a record root; otherwise the
document is the sole root. -/
def extract (lib : PyLib) (schema : ParsingSchemaM) (base_url : PyStr)
    (tree : HtmlTree) : List RecordT :=
  match schema.item_container with
  | some sel => extractLoop lib schema base_url (tree.cssN sel)
  | none =>
      let record := extract_record lib schema base_url tree.rootNode
      if validate_record schema record then [record] else []

end ParserPipeline

namespace ParserPipeline

/-! Embedding of the message models (`src/shared/models`), the result
builder (`src/uca/common/result_builder.py`), the workers
(`src/uca/http_worker/worker.py`, `src/uca/browser_worker/worker.py`)
and the coordinator (`src/controlpanel/services/task_service.py`). -/

/-- `ErrorDetail`: code, message, retryability (stack trace/context are
not load-bearing). -/
structure ErrorDetailM where
  code : PyStr
  message : PyStr
  is_retryable : Bool
deriving DecidableEq

/-- `TaskMessage` (the fields the workers and coordinator read).  UUIDs
are modelled as naturals. -/
structure TaskMsgM where
  task_id : ℕ
  run_id : ℕ
  parent_task_id : Option ℕ
  source_id : PyStr
  target_url : PyStr
  modeBrowser : Bool
  schema_id : PyStr
  schema_version : PyStr
  priority : ℕ
  max_attempts : ℕ
  page_number : ℕ
  max_pages : Option ℕ
  attempt : ℕ

/-- `TaskMessage.child_task` (task_message.py lines 88-107): fresh ids,
`parent_task_id` set to the parent, `page_number` passed by the workers;
`max_pages` and `attempt` fall back to their model defaults (`None`/0)
because `child_task` does not forward them. -/
def child_task (t : TaskMsgM) (target_url : PyStr) (page_number : ℕ)
    (fresh_task_id fresh_run_id : ℕ) : TaskMsgM :=
  { task_id := fresh_task_id
    run_id := fresh_run_id
    parent_task_id := some t.task_id
    source_id := t.source_id
    target_url := target_url
    modeBrowser := t.modeBrowser
    schema_id := t.schema_id
    schema_version := t.schema_version
    priority := t.priority
    max_attempts := t.max_attempts
    page_number := page_number
    max_pages := none
    attempt := 0 }

/-- `ResultMessage` (the fields the coordinator reads, plus the
extraction/pagination payload).  It doubles as the result envelope. -/
structure ResultMsgM where
  task_id : ℕ
  run_id : ℕ
  status : PyStr
  http_status : Option ℕ
  records_extracted : ℕ
  records_valid : ℕ
  records_rejected : ℕ
  bytes_downloaded : ℕ
  requests_count : ℕ
  pages_processed : ℕ
  delta_path : PyStr
  has_next_page : Bool
  next_page_url : Option PyStr
  current_page : ℕ
  errors : List ErrorDetailM

/-- `ResultBuilder` state (result_builder.py); wall-clock fields are
outside the model. -/
structure ResultBuilderM where
  task_id : ℕ
  run_id : ℕ
  http_status : Option ℕ := none
  errors : List ErrorDetailM := []
  records_extracted : ℕ := 0
  records_valid : ℕ := 0
  records_rejected : ℕ := 0
  bytes_downloaded : ℕ := 0
  requests_count : ℕ := 0
  pages_processed : ℕ := 0
  delta_path : PyStr := []
  has_next_page : Bool := false
  next_page_url : Option PyStr := none
  current_page : ℕ := 1

/-- `ResultBuilder.add_error`. -/
def addError (b : ResultBuilderM) (code message : PyStr)
    (is_retryable : Bool) : ResultBuilderM :=
  { b with errors := b.errors ++ [⟨code, message, is_retryable⟩] }

/-- `ResultBuilder._build` with an explicit terminal status. -/
def buildWith (b : ResultBuilderM) (status : PyStr) : ResultMsgM :=
  { task_id := b.task_id
    run_id := b.run_id
    status := status
    http_status := b.http_status
    records_extracted := b.records_extracted
    records_valid := b.records_valid
    records_rejected := b.records_rejected
    bytes_downloaded := b.bytes_downloaded
    requests_count := b.requests_count
    pages_processed := b.pages_processed
    delta_path := b.delta_path
    has_next_page := b.has_next_page
    next_page_url := b.next_page_url
    current_page := b.current_page
    errors := b.errors }

/-- `ResultBuilder.build_success`: `success` when at least one valid
record, else `partial`. -/
def build_success (b : ResultBuilderM) : ResultMsgM :=
  buildWith b (if b.records_valid > 0 then ("success".data) else ("partial".data))

/-- `ResultBuilder.build_failed`. -/
def build_failed (b : ResultBuilderM) : ResultMsgM := buildWith b ("failed".data)

/-- `ResultBuilder.build_retry`. -/
def build_retry (b : ResultBuilderM) : ResultMsgM := buildWith b ("retry".data)

/-- HTTP statuses whose `HTTP_ERROR` is marked retryable by both
workers. -/
def retryableHttpStatuses : List ℕ := [429, 500, 502, 503, 504]

/-- Outcome of the fetch step seen by `_execute_task`: a response (body
may be `None`, as `_fetch_page` maps its own exceptions to
`(None, 0)`), or an exception raised at an await point inside the try
block (`asyncio.TimeoutError` / `aiohttp.ClientError`). -/
inductive FetchOutcome where
  | ok (html : Option PyStr) (status : ℕ)
  | excTimeout
  | excClientError

/-- Python `task.max_pages or pagination.max_pages`: `None` and `0` are
falsy. -/
def pyOrNat (o : Option ℕ) (d : ℕ) : ℕ :=
  match o with
  | some n => if n = 0 then d else n
  | none => d

/-- `HTTPWorker._get_next_page_url` (http worker lines 295-326):
`next_button` reads the first matching element's `href` and joins it to
the task URL; `page_param` rewrites the query parameter.  URL plumbing
(`urljoin`, `urlparse`/`urlencode`) is `PyLib`. -/
def http_get_next_page_url (lib : PyLib) (tree : HtmlTree)
    (schema : ParsingSchemaM) (task : TaskMsgM) : Option PyStr :=
  match schema.pagination with
  | none => none
  | some pag =>
    if pag.ptype = ("next_button".data) ∧ (pag.selector.getD []) ≠ [] then
      match tree.cssN (pag.selector.getD []) with
      | [] => none
      | e :: _ =>
          match attrGet e.attrs ("href".data) with
          | some href =>
              if href ≠ [] then some (lib.urljoin task.target_url href) else none
          | none => none
    else if pag.ptype = ("page_param".data) ∧ (pag.param_name.getD []) ≠ [] then
      some (lib.urlSetParam task.target_url (pag.param_name.getD [])
        ((task.page_number : ℤ) + pag.param_step))
    else none

/-- `HTTPWorker._execute_task` (http worker lines 125-234).  External
inputs are explicit: the schema-cache/API lookup result, the fetch
outcome, the HTML parser (`parseDoc`), the Delta-writer path, and fresh
ids for a pagination child.  Trash writes are fire-and-forget and have
no observable effect on the result.  Returns the published result
envelope and the pagination child task (if any). -/
def http_execute_task (lib : PyLib) (parseDoc : PyStr → HtmlTree)
    (schemaRes : Option ParsingSchemaM) (fetched : FetchOutcome)
    (task : TaskMsgM) (fresh_task_id fresh_run_id : ℕ) (deltaPathVal : PyStr) :
    ResultMsgM × Option TaskMsgM :=
  let b : ResultBuilderM := { task_id := task.task_id, run_id := task.run_id }
  match schemaRes with
  | none =>
      (build_failed (addError b ("VALIDATION_ERROR".data)
        (("Schema ".data) ++ task.schema_id ++ (" not found".data)) false), none)
  | some schema =>
    match fetched with
    | .excTimeout =>
        let b := addError b ("TIMEOUT".data) ("Request timeout".data) true
        (if task.attempt < task.max_attempts then build_retry b else build_failed b,
         none)
    | .excClientError =>
        let b := addError b ("CONNECTION_ERROR".data) ("client error".data) true
        (if task.attempt < task.max_attempts then build_retry b else build_failed b,
         none)
    | .ok html http_status =>
      let b := { b with
        http_status := some http_status
        bytes_downloaded := b.bytes_downloaded + (html.getD []).length
        requests_count := b.requests_count + 1 }
      if (html.getD []).isEmpty || 400 ≤ http_status then
        (build_failed (addError b ("HTTP_ERROR".data)
          (("HTTP ".data) ++ natToPyStr http_status)
          (http_status ∈ retryableHttpStatuses)), none)
      else
        let htmlS := html.getD []
        let records := extract lib schema task.target_url (parseDoc htmlS)
        let valid_records := records.filter (fun r => !r.isEmpty)
        let rejected_count := records.length - valid_records.length
        let b := { b with
          records_extracted := records.length
          records_valid := valid_records.length
          records_rejected := rejected_count
          pages_processed := b.pages_processed + 1 }
        let b := if !valid_records.isEmpty then { b with delta_path := deltaPathVal }
                 else b
        let (b, child) :=
          match schema.pagination with
          | some pag =>
              let next_url := http_get_next_page_url lib (parseDoc htmlS) schema task
              if (next_url.getD []) ≠ []
                  ∧ task.page_number < pyOrNat task.max_pages pag.max_pages then
                ({ b with
                    has_next_page := true
                    next_page_url := next_url
                    current_page := task.page_number },
                 some (child_task task (next_url.getD []) (task.page_number + 1)
                   fresh_task_id fresh_run_id))
              else (b, none)
          | none => (b, none)
        (build_success b, child)

/-- The browser page surface read by the browser worker's pagination
helper: current URL and `query_selector` (first match or `None`). -/
structure BrowserPageM where
  url : PyStr
  querySel : PyStr → Option (List (PyStr × Option PyStr))

/-- `BrowserWorker._get_next_page_url` (browser worker lines 411-431):
first match of the pagination selector, its `href`; `javascript:` links
return the current page URL. -/
def browser_get_next_page_url (page : BrowserPageM)
    (schema : ParsingSchemaM) : Option PyStr :=
  match schema.pagination with
  | none => none
  | some pag =>
    match pag.selector with
    | none => none
    | some sel =>
      if sel = [] then none
      else
        match page.querySel sel with
        | none => none
        | some el =>
            match attrGet el ("href".data) with
            | some href =>
                if href ≠ [] then
                  some (if pyStartsWith ("javascript:".data) href then page.url
                        else href)
                else none
            | none => none

/-- The pagination block of `BrowserWorker._execute_task` (browser
worker lines 281-289): for `next_button`/`load_more`, whenever a next
URL is derivable a child task is published — with no
`page_number < max_pages` check.  Returns (has_next_page flag,
next_page_url, child task). -/
def browser_pagination_block (page : BrowserPageM) (schema : ParsingSchemaM)
    (task : TaskMsgM) (fresh_task_id fresh_run_id : ℕ) :
    Bool × Option PyStr × Option TaskMsgM :=
  match schema.pagination with
  | some pag =>
      if pag.ptype = ("next_button".data) ∨ pag.ptype = ("load_more".data) then
        match browser_get_next_page_url page schema with
        | some next_url =>
            if next_url ≠ [] then
              (true, some next_url,
               some (child_task task next_url (task.page_number + 1)
                 fresh_task_id fresh_run_id))
            else (false, none, none)
        | none => (false, none, none)
      else (false, none, none)
  | none => (false, none, none)

end ParserPipeline

namespace ParserPipeline

/-- `TaskStatus` enum (task_message.py lines 11-22). -/
inductive TaskStatusM where
  | pending | queued | running | success | partialDone | failed
  | retry | cancelled | dlq
deriving DecidableEq

/-- The member names of the `TaskStatus` enum
(`TaskStatus.__members__` keys). -/
def taskStatusMemberNames : List PyStr :=
  ["PENDING".data, "QUEUED".data, "RUNNING".data, "SUCCESS".data,
   "PARTIAL".data, "FAILED".data, "RETRY".data, "CANCELLED".data, "DLQ".data]

/-- `TaskStatus(s)`: Python enum lookup by value (the values are the
lowercase strings); `none` models the `ValueError` raised on any other
string. -/
def taskStatusOfValue (s : PyStr) : Option TaskStatusM :=
  if s = ("pending".data) then some .pending
  else if s = ("queued".data) then some .queued
  else if s = ("running".data) then some .running
  else if s = ("success".data) then some .success
  else if s = ("partial".data) then some .partialDone
  else if s = ("failed".data) then some .failed
  else if s = ("retry".data) then some .retry
  else if s = ("cancelled".data) then some .cancelled
  else if s = ("dlq".data) then some .dlq
  else none

/-- The task row (`TaskModel`, controlpanel/models/task.py) — the
columns `TaskService` reads and writes. -/
structure TaskRecordM where
  id : ℕ
  status : TaskStatusM
  current_attempt : ℕ
  max_attempts : ℕ
  records_extracted : ℕ
  records_valid : ℕ
  delta_path : Option PyStr
  errors : List ErrorDetailM
  completed_at : Option ℕ

/-- A task-run row (`TaskRunModel`).  `http_status` is read from the
metrics dict, which has no such key, so it is always `None` in the
source. -/
structure RunRowM where
  task_id : ℕ
  run_id : ℕ
  attempt : ℕ
  status : PyStr
  http_status : Option ℕ
  records_extracted : ℕ
  records_valid : ℕ
  records_rejected : ℕ
  delta_path : Option PyStr
  errors : List ErrorDetailM
  completed_at : ℕ

/-- Coordinator persistent state for one task: the task row and its run
rows.  (`update_from_result` looks the task up by id; an envelope for a
different task id is the not-found branch.) -/
structure CoordState where
  task : TaskRecordM
  runs : List RunRowM

/-- `TaskService.update_from_result` (task_service.py lines 231-288).
The task update and the run insert form one transaction committed at
the end:

* unknown task id → early return, no change;
* the status string is mapped through
  `TaskStatus(status) if status in TaskStatus.__members__ else FAILED`;
  when the lookup raises `ValueError` the transaction aborts un-committed
  (state unchanged);
* `task_runs.run_id` carries a database unique constraint
  (`uq_task_runs_run_id`, models/task.py and the initial alembic
  migration), so inserting a duplicate `run_id` fails the commit and the
  whole transaction rolls back (state unchanged);
* otherwise the task row is overwritten from the envelope (status,
  counters, pointers, errors, `completed_at`, `current_attempt += 1`)
  and a run row is appended. -/
def update_from_result (s : CoordState) (env : ResultMsgM) (now : ℕ) :
    CoordState :=
  if env.task_id ≠ s.task.id then s
  else
    let newStatus : Option TaskStatusM :=
      if env.status ∈ taskStatusMemberNames then taskStatusOfValue env.status
      else some .failed
    match newStatus with
    | none => s
    | some st =>
      if env.run_id ∈ s.runs.map RunRowM.run_id then s
      else
        let att := s.task.current_attempt + 1
        { task := { s.task with
            status := st
            records_extracted := env.records_extracted
            records_valid := env.records_valid
            delta_path := some env.delta_path
            errors := env.errors
            completed_at := some now
            current_attempt := att }
          runs := s.runs ++
            [{ task_id := env.task_id
               run_id := env.run_id
               attempt := att
               status := env.status
               http_status := none
               records_extracted := env.records_extracted
               records_valid := env.records_valid
               records_rejected := env.records_rejected
               delta_path := some env.delta_path
               errors := env.errors
               completed_at := now }] }

/-- `TaskService.cancel` (task_service.py lines 211-229): only
`PENDING`/`QUEUED` tasks can be cancelled; success sets `CANCELLED` and
`completed_at`.  Returns the endpoint's boolean and the new state. -/
def cancelTask (s : CoordState) (task_id : ℕ) (now : ℕ) : Bool × CoordState :=
  if task_id ≠ s.task.id then (false, s)
  else if s.task.status ≠ TaskStatusM.pending
      ∧ s.task.status ≠ TaskStatusM.queued then (false, s)
  else
    (true,
     { s with task := { s.task with
         status := TaskStatusM.cancelled
         completed_at := some now } })

end ParserPipeline

namespace ParserPipeline

/-! Supporting lemmas. -/

/-- `pyStrip` in terms of `dropWhile`/`rdropWhile`. -/
theorem pyStrip_eq_rdropWhile (s : PyStr) :
    pyStrip s = List.rdropWhile isPySpace (s.dropWhile isPySpace) := rfl

/-- `dropWhile` never lengthens a list. -/
theorem dropWhile_length_le (p : Char → Bool) (l : PyStr) :
    (List.dropWhile p l).length ≤ l.length := by
  induction l with
  | nil => simp
  | cons d ds ih =>
      by_cases hd : p d
      · rw [List.dropWhile_cons_of_pos hd]
        simp only [List.length_cons]
        omega
      · rw [List.dropWhile_cons_of_neg hd]

/-- A list equal to its own `dropWhile` has a head failing the
predicate. -/
theorem head_false_of_dropWhile_eq_self {p : Char → Bool} {c : Char}
    {rest : PyStr} (h : List.dropWhile p (c :: rest) = c :: rest) :
    p c = false := by
  by_contra hc
  simp only [Bool.not_eq_false] at hc
  rw [List.dropWhile_cons_of_pos hc] at h
  have hlen := congrArg List.length h
  have hle := dropWhile_length_le p rest
  simp only [List.length_cons] at hlen
  omega

/-- Stripping is idempotent. -/
theorem pyStrip_idem (s : PyStr) : pyStrip (pyStrip s) = pyStrip s := by
  have hu : List.dropWhile isPySpace (List.dropWhile isPySpace s)
      = List.dropWhile isPySpace s := List.dropWhile_idempotent _ _
  have hv : List.dropWhile isPySpace (pyStrip s) = pyStrip s := by
    rw [pyStrip_eq_rdropWhile]
    obtain ⟨t, ht⟩ := List.rdropWhile_prefix isPySpace (s.dropWhile isPySpace)
    cases hv0 : List.rdropWhile isPySpace (s.dropWhile isPySpace) with
    | nil => rfl
    | cons c v =>
        rw [hv0] at ht
        have hu2 : List.dropWhile isPySpace s = c :: (v ++ t) := by
          rw [← ht]; rfl
        rw [hu2] at hu
        have hc := head_false_of_dropWhile_eq_self hu
        exact List.dropWhile_cons_of_neg (by simp [hc])
  rw [pyStrip_eq_rdropWhile, hv, pyStrip_eq_rdropWhile,
    List.rdropWhile_idempotent]

/-- Reduction of the `trim` transform on a present value. -/
theorem apply_single_trim (lib : PyLib) (v : TValue) (base : PyStr) :
    apply_single_transform lib (some v) ("trim".data) base
      = some (.vstr (pyStrip (pyToStr v))) := rfl

/-- C9: the empty transformation chain is the identity, and `trim` is
idempotent: applying it twice equals applying it once.
(spec §8 invariant 4; `apply_transformations` /
`_apply_single_transform`, transformers.py lines 9-41). -/
theorem empty_chain_identity_and_trim_idempotent :
    (∀ (lib : PyLib) (v : Option TValue) (base : PyStr),
        apply_transformations lib v [] base = v)
    ∧ (∀ (lib : PyLib) (v : Option TValue) (base : PyStr),
        apply_transformations lib v [("trim".data), ("trim".data)] base
          = apply_transformations lib v [("trim".data)] base) := by
  constructor
  · intro lib v base
    cases v <;> rfl
  · intro lib v base
    cases v with
    | none => rfl
    | some v =>
        have h1 : apply_transformations lib (some v) [("trim".data)] base
            = some (.vstr (pyStrip (pyToStr v))) := rfl
        have h2 : apply_transformations lib (some v)
              [("trim".data), ("trim".data)] base
            = some (.vstr (pyStrip (pyToStr
                (TValue.vstr (pyStrip (pyToStr v)))))) := rfl
        have h3 : pyToStr (TValue.vstr (pyStrip (pyToStr v)))
            = pyStrip (pyToStr v) := by simp [pyToStr]
        rw [h1, h2, h3, pyStrip_idem]

end ParserPipeline

namespace ParserPipeline

/-- Key membership after a dict insertion. -/
theorem dictInsert_keys_mem (m : RecordT) (k : PyStr) (v : Option TValue)
    (x : PyStr) :
    x ∈ (dictInsert m k v).map Prod.fst ↔ x ∈ m.map Prod.fst ∨ x = k := by
  induction m with
  | nil => simp [dictInsert]
  | cons p rest ih =>
      obtain ⟨k', v'⟩ := p
      by_cases hk : k' = k
      · subst hk
        simp [dictInsert]
        tauto
      · simp [dictInsert, hk, ih]
        tauto

/-- Key membership after folding field insertions over an accumulator. -/
theorem foldl_dictInsert_keys_mem (val : FieldDefM → Option TValue)
    (fs : List FieldDefM) (acc : RecordT) (k : PyStr) :
    k ∈ (fs.foldl (fun record f => dictInsert record f.name (val f)) acc).map
        Prod.fst
      ↔ k ∈ acc.map Prod.fst ∨ k ∈ fs.map FieldDefM.name := by
  induction fs generalizing acc with
  | nil => simp
  | cons f fs ih =>
      simp only [List.foldl_cons, ih, dictInsert_keys_mem, List.map_cons,
        List.mem_cons]
      tauto

/-- C10: every record produced by `_extract_record` has exactly the
schema's declared field names as its key set — each declared field name
is a key and no other key appears (extractor.py lines 61-96). -/
theorem extract_record_key_set (lib : PyLib) (schema : ParsingSchemaM)
    (base_url : PyStr) (node : SelNode) (k : PyStr) :
    k ∈ (extract_record lib schema base_url node).map Prod.fst
      ↔ k ∈ schema.fields.map FieldDefM.name := by
  unfold extract_record
  rw [foldl_dictInsert_keys_mem]
  simp

end ParserPipeline

namespace ParserPipeline

/-- Specification-side description of "first non-null wins": the first
`some` entry of a list of optional values. -/
def firstNonNull (l : List (Option TValue)) : Option TValue :=
  (l.find? Option.isSome).join

/-- The fallback loop is exactly "first non-null in list order". -/
theorem firstSelectorHit_eq_firstNonNull (node : SelNode) (m : MethodM)
    (attr : Option PyStr) (ss : List PyStr) :
    firstSelectorHit node m attr ss
      = firstNonNull (ss.map (fun s => extract_with_selector node m s attr)) := by
  induction ss with
  | nil => rfl
  | cons s ss ih =>
      cases hs : extract_with_selector node m s attr with
      | some v => simp [firstSelectorHit, hs, firstNonNull]
      | none => simp [firstSelectorHit, hs, firstNonNull, ih]

/-- C7: for a field with non-empty `fallback_selectors`, the primary
selector short-circuits — a non-null primary result is the field value
and no fallback is consulted — and on a null primary the fallbacks are
tried in list order with the first non-null result winning
(`_extract_field`, extractor.py lines 98-110). -/
theorem fallback_order_and_primary_short_circuit (node : SelNode)
    (f : FieldDefM) (hfb : f.fallback_selectors ≠ []) :
    (extract_field node f
      = firstNonNull
          (extract_with_selector node f.method f.selector f.attr ::
            f.fallback_selectors.map
              (fun s => extract_with_selector node f.method s f.attr)))
    ∧ (∀ v, extract_with_selector node f.method f.selector f.attr = some v →
        extract_field node f = some v
        ∧ consultedSelectors node f = [f.selector]) := by
  refine ⟨?_, ?_⟩
  · cases hp : extract_with_selector node f.method f.selector f.attr with
    | some v => simp [extract_field, hp, firstNonNull]
    | none =>
        have hne : f.fallback_selectors.isEmpty = false := by
          cases hfs : f.fallback_selectors with
          | nil => exact absurd hfs hfb
          | cons a l => rfl
        simp only [extract_field, hp, Option.isNone_none, hne, Bool.not_false,
          Bool.and_self, if_pos]
        rw [firstSelectorHit_eq_firstNonNull]
        simp [firstNonNull, List.find?]
  · intro v hv
    constructor
    · simp [extract_field, hv]
    · simp [consultedSelectors, hv]

/-- Concrete node for the C7 witness: only the selector `p` resolves. -/
def witNode : SelNode :=
  { evalSel := fun _ s _ => if s = ("p".data) then some (.vstr ("v".data)) else none
    attrs := [] }

/-- Concrete field for the C7 witness: primary `p`, one fallback. -/
def witField : FieldDefM :=
  { name := "x".data
    type := .stringT
    method := .css
    selector := "p".data
    attr := none
    required := true
    defaultVal := none
    transformations := []
    validation_regex := none
    fallback_selectors := [("q".data)] }

/-- Witness for C7: at a concrete node whose primary selector hits, the
field value is the primary result and only the primary selector is
consulted. -/
theorem fallback_order_witness :
    extract_field witNode witField = some (.vstr ("v".data))
      ∧ consultedSelectors witNode witField = [("p".data)] := by
  have h := fallback_order_and_primary_short_circuit witNode witField
    (by decide)
  exact ⟨(h.2 _ rfl).1, (h.2 _ rfl).2⟩

end ParserPipeline

namespace ParserPipeline

/-- The `TaskStatus` member names are not member values: looking any of
them up by value raises `ValueError`. -/
theorem taskStatusOfValue_memberName_none (v : PyStr)
    (hv : v ∈ taskStatusMemberNames) : taskStatusOfValue v = none := by
  fin_cases hv <;> decide

/-- C2: result ingestion is idempotent on `run_id` — re-ingesting the
same envelope leaves the coordinator state (task status,
`current_attempt`, counters, pointers, and the run rows) unchanged.
The source relies on the `task_runs.run_id` unique constraint: the
duplicate insert fails the commit and the transaction rolls back
(`TaskService.update_from_result`, task_service.py lines 231-288). -/
theorem result_ingestion_idempotent (s : CoordState) (env : ResultMsgM)
    (n n' : ℕ) :
    update_from_result (update_from_result s env n) env n'
      = update_from_result s env n := by
  by_cases hid : env.task_id ≠ s.task.id
  · simp only [update_from_result, if_pos hid]
  · by_cases hm : env.status ∈ taskStatusMemberNames
    · have h0 := taskStatusOfValue_memberName_none env.status hm
      simp only [update_from_result, if_neg hid, if_pos hm, h0]
    · by_cases hdup : env.run_id ∈ s.runs.map RunRowM.run_id
      · simp only [update_from_result, if_neg hid, if_neg hm, if_pos hdup]
      · simp only [update_from_result, if_neg hid, if_neg hm, if_neg hdup]
        simp

end ParserPipeline

namespace ParserPipeline

/-! Concrete fixtures used by the scenario evaluations. -/

/-- A trivial external-library instance (no claim depends on stdlib
behaviour at these fixtures). -/
def libFix : PyLib :=
  { urljoin := fun base s => base ++ s
    urlNetloc := fun _ => none
    urlSetParam := fun u _ _ => u
    strptime := fun _ _ => none
    unescapeHtml := fun s => s
    jsonLoads := fun _ => none
    reSearchGroups := fun _ _ => none
    reMatch := fun _ _ => false }

/-- A node on which no selector resolves. -/
def nodeFix : SelNode := { evalSel := fun _ _ _ => none, attrs := [] }

/-- A document with no matching containers. -/
def treeFix : HtmlTree := { cssN := fun _ => [], rootNode := nodeFix }

/-- A parser producing `treeFix` for any HTML. -/
def parseFix : PyStr → HtmlTree := fun _ => treeFix

/-- A one-field schema for the HTTP-error scenario. -/
def schemaFix : ParsingSchemaM :=
  { schema_id := "s1".data
    version := "1.0.0".data
    source_id := "src".data
    item_container := none
    fields := [{ name := "title".data
                 type := .stringT
                 method := .css
                 selector := "h1".data
                 attr := none
                 required := true
                 defaultVal := none
                 transformations := []
                 validation_regex := none
                 fallback_selectors := [] }]
    min_fields_required := 1
    pagination := none
    request_headers := [] }

/-- The task message of the scenarios: `max_attempts = 3`, first
attempt. -/
def taskFix : TaskMsgM :=
  { task_id := 7
    run_id := 11
    parent_task_id := none
    source_id := "src".data
    target_url := "http://x/".data
    modeBrowser := false
    schema_id := "s1".data
    schema_version := "latest".data
    priority := 5
    max_attempts := 3
    page_number := 1
    max_pages := none
    attempt := 0 }

/-- Coordinator state holding task 7 in `QUEUED` with no runs. -/
def stateQueued : CoordState :=
  { task := { id := 7
              status := .queued
              current_attempt := 0
              max_attempts := 3
              records_extracted := 0
              records_valid := 0
              delta_path := none
              errors := []
              completed_at := none }
    runs := [] }

/-- The result the HTTP worker publishes when the fetch returns
HTTP 503 on task 7. -/
def result503 : ResultMsgM :=
  (http_execute_task libFix parseFix (some schemaFix)
    (.ok (some ("err".data)) 503) taskFix 100 101 ("d".data)).1

/-- A `SUCCESS` result envelope for task 7 (run 11). -/
def successEnv : ResultMsgM :=
  { task_id := 7
    run_id := 11
    status := "success".data
    http_status := some 200
    records_extracted := 3
    records_valid := 3
    records_rejected := 0
    bytes_downloaded := 10
    requests_count := 1
    pages_processed := 1
    delta_path := "d".data
    has_next_page := false
    next_page_url := none
    current_page := 1
    errors := [] }

/-- C3 (code bug): `cancel` does succeed only from `PENDING`/`QUEUED`
and sets `CANCELLED` with `completed_at`, and a second cancel is
refused — but a subsequently ingested `SUCCESS` envelope does NOT
preserve `CANCELLED`: `update_from_result` overwrites the status
unconditionally (and its `__members__` guard maps every worker status
string to `FAILED`).  The run is recorded, the terminal state is lost
(task_service.py lines 211-288). -/
theorem cancelled_task_overwritten_by_ingestion :
    (cancelTask stateQueued 7 5).1 = true
    ∧ ((cancelTask stateQueued 7 5).2).task.status = TaskStatusM.cancelled
    ∧ ((cancelTask stateQueued 7 5).2).task.completed_at = some 5
    ∧ (cancelTask ((cancelTask stateQueued 7 5).2) 7 6).1 = false
    ∧ (update_from_result ((cancelTask stateQueued 7 5).2) successEnv 9).runs.length
        = 1
    ∧ (update_from_result ((cancelTask stateQueued 7 5).2) successEnv 9).task.status
        ≠ TaskStatusM.cancelled
    ∧ (update_from_result ((cancelTask stateQueued 7 5).2) successEnv 9).task.status
        = TaskStatusM.failed := by
  refine ⟨rfl, rfl, rfl, rfl, rfl, ?_, rfl⟩
  intro h
  simp only [update_from_result] at h
  revert h
  decide

end ParserPipeline

namespace ParserPipeline

/-- C1 (code bug): with every fetch returning HTTP 503 and
`max_attempts = 3`, the worker's very first run is terminal `failed`
(not `retry` — `_execute_task` calls `build_failed()` on HTTP errors
even though it marks them retryable), the coordinator records one run
with status `failed`, sets the task to `FAILED`, and — as the general
conjunct shows — result ingestion can never produce `RETRY` or `DLQ`:
it either leaves the status unchanged or sets `FAILED`
(http worker lines 125-234; task_service.py lines 231-288). -/
theorem retry_then_dlq_scenario_divergence :
    result503.status = ("failed".data)
    ∧ result503.errors = [⟨"HTTP_ERROR".data, "HTTP 503".data, true⟩]
    ∧ result503.http_status = some 503
    ∧ (update_from_result stateQueued result503 9).task.status
        = TaskStatusM.failed
    ∧ (update_from_result stateQueued result503 9).task.current_attempt = 1
    ∧ (update_from_result stateQueued result503 9).runs.map RunRowM.status
        = [("failed".data)]
    ∧ (update_from_result stateQueued result503 9).task.errors
        = [⟨"HTTP_ERROR".data, "HTTP 503".data, true⟩]
    ∧ (∀ (s : CoordState) (env : ResultMsgM) (n : ℕ),
        (update_from_result s env n).task.status = s.task.status
        ∨ (update_from_result s env n).task.status = TaskStatusM.failed) := by
  refine ⟨rfl, by decide, rfl, rfl, rfl, by decide, by decide, ?_⟩
  intro s env n
  by_cases hid : env.task_id ≠ s.task.id
  · simp only [update_from_result, if_pos hid]
    left; trivial
  · by_cases hm : env.status ∈ taskStatusMemberNames
    · have h0 := taskStatusOfValue_memberName_none env.status hm
      simp only [update_from_result, if_neg hid, if_pos hm, h0]
      left; trivial
    · by_cases hdup : env.run_id ∈ s.runs.map RunRowM.run_id
      · simp only [update_from_result, if_neg hid, if_neg hm, if_pos hdup]
        left; trivial
      · simp only [update_from_result, if_neg hid, if_neg hm, if_neg hdup]
        right; trivial

end ParserPipeline

namespace ParserPipeline

/-- A product card: name always present, price only when `hasPrice`. -/
def nodeCard (hasPrice : Bool) : SelNode :=
  { evalSel := fun _ sel _ =>
      if sel = ("h2.product-name".data) then some (.vstr ("Item".data))
      else if sel = ("span.price".data) ∧ hasPrice then
        some (.vstr ("10".data))
      else none
    attrs := [] }

/-- Document for scenario S2: three cards, the third lacks `.price`. -/
def treeS2 : HtmlTree :=
  { cssN := fun sel =>
      if sel = ("div.product-card".data) then
        [nodeCard true, nodeCard true, nodeCard false]
      else []
    rootNode := nodeFix }

/-- Schema for scenario S2: `name` and `price` both required, no
fallbacks, no defaults, `min_fields_required = 1` (the model default). -/
def schemaS2 : ParsingSchemaM :=
  { schema_id := "s2".data
    version := "1.0.0".data
    source_id := "src".data
    item_container := some ("div.product-card".data)
    fields := [{ name := "name".data
                 type := .stringT
                 method := .css
                 selector := "h2.product-name".data
                 attr := none
                 required := true
                 defaultVal := none
                 transformations := []
                 validation_regex := none
                 fallback_selectors := [] },
               { name := "price".data
                 type := .stringT
                 method := .css
                 selector := "span.price".data
                 attr := none
                 required := true
                 defaultVal := none
                 transformations := []
                 validation_regex := none
                 fallback_selectors := [] }]
    min_fields_required := 1
    pagination := none
    request_headers := [] }

/-- The worker result for scenario S2. -/
def resultS2 : ResultMsgM :=
  (http_execute_task libFix (fun _ => treeS2) (some schemaS2)
    (.ok (some ("page".data)) 200) taskFix 200 201 ("dp".data)).1

/-- C5 (code bug): on the S2 document (three record roots, one missing
its required `price`), `extract` silently drops the rejected record, so
the worker — which recomputes "rejected" as the falsy entries of the
already-filtered list — reports `records_extracted = 2`,
`records_valid = 2` and `records_rejected = 0` (the spec expects
`records_rejected = 1`); the run status is `success`
(extractor.py lines 22-59; http worker lines 163-173). -/
theorem rejected_count_scenario_divergence :
    (extract libFix schemaS2 taskFix.target_url treeS2).length = 2
    ∧ resultS2.records_extracted = 2
    ∧ resultS2.records_valid = 2
    ∧ resultS2.records_rejected = 0
    ∧ resultS2.status = ("success".data) := by
  refine ⟨rfl, rfl, rfl, rfl, rfl⟩

/-- Browser page for the pagination scenario: the next-page link is
present. -/
def pageNext : BrowserPageM :=
  { url := "http://x/p10".data
    querySel := fun sel =>
      if sel = ("a.next".data) then
        some [("href".data, some ("http://x/p11".data))]
      else none }

/-- Pagination rule: `next_button`, `max_pages = 10`. -/
def pagRule : PaginationRuleM :=
  { ptype := "next_button".data
    selector := some ("a.next".data)
    param_name := none
    param_start := 1
    param_step := 1
    max_pages := 10
    stop_selector := none
    scroll_delay_ms := 1000 }

/-- `schemaFix` with the pagination rule attached. -/
def schemaPag : ParsingSchemaM := { schemaFix with pagination := some pagRule }

/-- The scenario task already at `page_number = 10` (the cap). -/
def taskP10 : TaskMsgM := { taskFix with page_number := 10 }

/-- HTTP-mode document whose `a.next` element carries an `href`. -/
def treePag : HtmlTree :=
  { cssN := fun sel =>
      if sel = ("a.next".data) then
        [{ evalSel := fun _ _ _ => none
           attrs := [("href".data, some ("/p11".data))] }]
      else []
    rootNode := nodeFix }

/-- The browser worker's pagination outcome at the cap. -/
def browserPagOut : Bool × Option PyStr × Option TaskMsgM :=
  browser_pagination_block pageNext schemaPag taskP10 300 301

/-- The HTTP worker's outcome at the cap on the same schema. -/
def httpPagOut : ResultMsgM × Option TaskMsgM :=
  http_execute_task libFix (fun _ => treePag) (some schemaPag)
    (.ok (some ("page".data)) 200) taskP10 400 401 ("dp".data)

/-- C6 (code bug): with `page_number = 10 = max_pages` and a next link
present, the HTTP worker enqueues no child (it checks
`page_number < max_pages`), but the browser worker enqueues a child
anyway — `page_number = 11`, `parent_task_id` set — because its
pagination block never consults `max_pages`
(http worker lines 196-207; browser worker lines 281-289). -/
theorem pagination_cap_divergence :
    ¬ (taskP10.page_number < pyOrNat taskP10.max_pages pagRule.max_pages)
    ∧ httpPagOut.2 = none
    ∧ httpPagOut.1.has_next_page = false
    ∧ browserPagOut.1 = true
    ∧ browserPagOut.2.1 = some ("http://x/p11".data)
    ∧ (browserPagOut.2.2).map TaskMsgM.page_number = some 11
    ∧ (browserPagOut.2.2).map TaskMsgM.parent_task_id = some (some 7) := by
  refine ⟨by decide, ?_, rfl, rfl, by decide, rfl, rfl⟩
  show (http_execute_task libFix (fun _ => treePag) (some schemaPag)
    (.ok (some ("page".data)) 200) taskP10 400 401 ("dp".data)).2 = none
  rfl

end ParserPipeline

namespace ParserPipeline

/-- Number of required fields with a non-null value in a record. -/
def countNonNullRequired (schema : ParsingSchemaM) (r : RecordT) : ℕ :=
  ((schema.fields.filter (fun f => f.required)).filter
    (fun f => (recordGet r f.name).isSome)).length

/-- The record roots of a document under a schema: the
`item_container` matches, or the document itself. -/
def extractionRoots (schema : ParsingSchemaM) (tree : HtmlTree) : List SelNode :=
  match schema.item_container with
  | some sel => tree.cssN sel
  | none => [tree.rootNode]

/-- `_validate_record` characterised: a record passes iff the non-null
required count reaches `min_fields_required` and every required field
is non-null. -/
theorem validate_record_iff (schema : ParsingSchemaM) (r : RecordT) :
    validate_record schema r = true
      ↔ (schema.min_fields_required ≤ countNonNullRequired schema r
          ∧ ∀ f ∈ schema.fields, f.required → (recordGet r f.name).isSome) := by
  unfold validate_record countNonNullRequired
  by_cases hlt :
      ((schema.fields.filter (fun f => f.required)).filter
        (fun f => (recordGet r f.name).isSome)).length
        < schema.min_fields_required
  · simp only [if_pos hlt]
    constructor
    · intro h; exact absurd h (by simp)
    · intro h; omega
  · simp only [if_neg hlt, List.all_eq_true]
    constructor
    · intro h
      refine ⟨by omega, ?_⟩
      intro f hf hreq
      exact h f (List.mem_filter.mpr ⟨hf, hreq⟩)
    · intro h f hf
      obtain ⟨hf1, hf2⟩ := List.mem_filter.mp hf
      exact h.2 f hf1 hf2

/-- The two validation predicates agree as booleans. -/
theorem validate_record_eq_decide (schema : ParsingSchemaM) (r : RecordT) :
    validate_record schema r
      = decide (schema.min_fields_required ≤ countNonNullRequired schema r
          ∧ ∀ f ∈ schema.fields, f.required → (recordGet r f.name).isSome) := by
  rw [Bool.eq_iff_iff, validate_record_iff, decide_eq_true_iff]

/-- The container loop is the filtered map of the roots. -/
theorem extractLoop_eq_filter (lib : PyLib) (schema : ParsingSchemaM)
    (base : PyStr) (ns : List SelNode) :
    extractLoop lib schema base ns
      = ((ns.map (extract_record lib schema base)).filter
          (validate_record schema)) := by
  induction ns with
  | nil => rfl
  | cons n ns ih =>
      simp only [extractLoop, List.map_cons, List.filter_cons]
      by_cases hv : validate_record schema (extract_record lib schema base n)
      · simp [hv, ih]
      · simp [hv, ih]

/-- C4 (amended): for every schema and document, the extraction core
emits exactly the records whose non-null required-field count reaches
`min_fields_required` AND whose required fields are all non-null
(`DataExtractor.extract` / `_validate_record`, extractor.py
lines 22-59 and 305-320). -/
theorem record_emission_condition (lib : PyLib) (schema : ParsingSchemaM)
    (base : PyStr) (tree : HtmlTree) :
    extract lib schema base tree
      = ((extractionRoots schema tree).map (extract_record lib schema base)).filter
          (fun r =>
            decide (schema.min_fields_required ≤ countNonNullRequired schema r
              ∧ ∀ f ∈ schema.fields, f.required → (recordGet r f.name).isSome)) := by
  have hfilter :
      ∀ ns : List SelNode,
        ((ns.map (extract_record lib schema base)).filter
          (validate_record schema))
        = ((ns.map (extract_record lib schema base)).filter
            (fun r =>
              decide (schema.min_fields_required ≤ countNonNullRequired schema r
                ∧ ∀ f ∈ schema.fields, f.required →
                    (recordGet r f.name).isSome))) := by
    intro ns
    apply List.filter_congr
    intro r _
    rw [validate_record_eq_decide]
  cases hic : schema.item_container with
  | some sel =>
      rw [show extract lib schema base tree
          = extractLoop lib schema base (tree.cssN sel) by
        simp [extract, hic]]
      rw [extractLoop_eq_filter, hfilter]
      simp [extractionRoots, hic]
  | none =>
      have h1 : extract lib schema base tree
          = extractLoop lib schema base [tree.rootNode] := by
        simp only [extract, extractLoop, hic]
      rw [h1, extractLoop_eq_filter, hfilter]
      simp [extractionRoots, hic]

/-- Single-card document for the C4 counterexample. -/
def treeC4 : HtmlTree :=
  { cssN := fun sel =>
      if sel = ("div.product-card".data) then [nodeCard false] else []
    rootNode := nodeFix }

/-- Counterexample to C4 as stated: on `schemaS2`
(`min_fields_required = 1`, two required fields) the card without a
price yields an extracted record whose non-null required count (1)
meets the threshold, yet the record is NOT emitted — emission is not
equivalent to the count condition alone. -/
theorem emission_iff_count_counterexample :
    schemaS2.min_fields_required
        ≤ countNonNullRequired schemaS2
            (extract_record libFix schemaS2 ("b".data) (nodeCard false))
    ∧ extract libFix schemaS2 ("b".data) treeC4 = [] := by
  exact ⟨by decide, rfl⟩

end ParserPipeline

namespace ParserPipeline

/-! Support lemmas for the number-format rules. -/

/-- `rfind` of an absent character is `-1`. -/
theorem pyRfind_not_mem {c : Char} {l : PyStr} (h : c ∉ l) :
    pyRfind c l = -1 := by
  induction l with
  | nil => rfl
  | cons x xs ih =>
      have hx : ¬ x = c := fun he => h (by simp [he])
      have hxs : c ∉ xs := fun hm => h (by simp [hm])
      simp only [pyRfind, ih hxs]
      norm_num
      simp [hx]

/-- `rfind` is always below the length. -/
theorem pyRfind_lt_length (c : Char) (l : PyStr) :
    pyRfind c l < (l.length : ℤ) := by
  induction l with
  | nil => simp [pyRfind]
  | cons x xs ih =>
      simp only [pyRfind, List.length_cons]
      split_ifs with h0 hx
      · push_cast
        omega
      · push_cast
        omega
      · push_cast
        omega

/-- `rfind` of the last separator occurrence. -/
theorem pyRfind_append_sep {c : Char} {b : PyStr} (hb : c ∉ b) (a : PyStr) :
    pyRfind c (a ++ c :: b) = (a.length : ℤ) := by
  induction a with
  | nil =>
      simp only [List.nil_append, pyRfind, pyRfind_not_mem hb]
      norm_num
  | cons x xs ih =>
      simp only [List.cons_append, pyRfind, List.append_eq, ih,
        List.length_cons]
      have h0 : (0 : ℤ) ≤ (xs.length : ℤ) := by positivity
      rw [if_pos h0]
      push_cast
      ring

/-- `rfind` ignores a suffix not containing the character. -/
theorem pyRfind_append_not_mem {c : Char} {b : PyStr} (hb : c ∉ b) (a : PyStr) :
    pyRfind c (a ++ b) = pyRfind c a := by
  induction a with
  | nil => simp [pyRfind_not_mem hb, pyRfind]
  | cons x xs ih =>
      simp only [List.cons_append, pyRfind, List.append_eq, ih]

/-- Splitting on an absent character yields the single segment. -/
theorem pySplitChar_not_mem {c : Char} {l : PyStr} (h : c ∉ l) :
    pySplitChar c l = [l] := by
  induction l with
  | nil => rfl
  | cons x xs ih =>
      have hx : ¬ (x == c) = true := by
        simp only [beq_iff_eq]
        exact fun he => h (by simp [he])
      have hxs : c ∉ xs := fun hm => h (by simp [hm])
      simp [pySplitChar, hx, ih hxs]

/-- Splitting at the final separator occurrence: the segments are a
non-empty prefix followed by the suffix `b`. -/
theorem pySplitChar_append_sep_decomp {c : Char} {b : PyStr} (hb : c ∉ b)
    (a : PyStr) :
    ∃ p0 ps, pySplitChar c (a ++ c :: b) = p0 :: (ps ++ [b]) := by
  induction a with
  | nil =>
      refine ⟨[], [], ?_⟩
      simp [pySplitChar, pySplitChar_not_mem hb]
  | cons x xs ih =>
      obtain ⟨p0, ps, hr⟩ := ih
      by_cases hx : (x == c) = true
      · exact ⟨[], p0 :: ps, by simp [pySplitChar, hx, hr]⟩
      · refine ⟨x :: p0, ps, ?_⟩
        simp [pySplitChar, hx, hr]

/-- `getLastD` of a list ending in a singleton. -/
theorem getLastD_append_singleton (l : List PyStr) (x : PyStr) (d : PyStr) :
    (l ++ [x]).getLastD d = x := by
  induction l generalizing d with
  | nil => rfl
  | cons y ys ih =>
      rw [List.cons_append, List.getLastD_cons]
      exact ih y

/-- The last segment of a split at the final separator occurrence. -/
theorem pySplitChar_append_sep_last {c : Char} {b : PyStr} (hb : c ∉ b)
    (a : PyStr) :
    (pySplitChar c (a ++ c :: b)).getLastD [] = b := by
  obtain ⟨p0, ps, hr⟩ := pySplitChar_append_sep_decomp hb a
  rw [hr, List.getLastD_cons, getLastD_append_singleton]

end ParserPipeline

namespace ParserPipeline

/-- A character with a false digit test and distinct from every digit
cannot occur in an all-digit string. -/
theorem not_mem_of_all_digits {b : PyStr} (hb : ∀ c ∈ b, c.isDigit = true)
    {d : Char} (hd : d.isDigit = false) : d ∉ b := by
  intro hm
  have := hb d hm
  rw [hd] at this
  exact Bool.false_ne_true this

/-- Removing an absent character is the identity. -/
theorem pyRemoveChar_not_mem {c : Char} {l : PyStr} (h : c ∉ l) :
    pyRemoveChar c l = l := by
  apply List.filter_eq_self.mpr
  intro x hx
  simp only [bne_iff_ne, ne_eq]
  exact fun he => h (he ▸ hx)

/-- Replacing an absent character is the identity. -/
theorem pyReplaceCharWith_not_mem {c d : Char} {l : PyStr} (h : c ∉ l) :
    pyReplaceCharWith c d l = l := by
  induction l with
  | nil => rfl
  | cons x xs ih =>
      have hx : ¬ (x == c) = true := by
        simp only [beq_iff_eq]
        exact fun he => h (by simp [he])
      have hxs : c ∉ xs := fun hm => h (by simp [hm])
      show (if (x == c) = true then d else x) :: pyReplaceCharWith c d xs
          = x :: xs
      rw [if_neg hx, ih hxs]

/-- The cleaning filter is the identity on kept characters. -/
theorem cleanNumeric_eq_self {l : PyStr} (h : ∀ x ∈ l, keepNumChar x = true) :
    cleanNumeric l = l := List.filter_eq_self.mpr h

/-- Both sample strings normalise to the same cleaned literal. -/
theorem extract_number_sample_us :
    extract_number ("1,234.56".data) = pyFloatParse ("1234.56".data) := rfl

/-- European-format sample. -/
theorem extract_number_sample_eu :
    extract_number ("1.234,56".data) = pyFloatParse ("1234.56".data) := rfl

/-- The cleaned literal parses to 1234.56. -/
theorem pyFloatParse_sample :
    pyFloatParse ("1234.56".data) = some ((123456 : ℚ) / 100) := by
  have h1 : pyFloatParse ("1234.56".data)
      = some ((1 : ℚ) * ((digitsVal ("1234".data) : ℚ)
          + (digitsVal ("56".data) : ℚ) / (10 : ℚ) ^ ("56".data).length)) := rfl
  rw [h1, show digitsVal ("1234".data) = 1234 from by decide,
    show digitsVal ("56".data) = 56 from by decide,
    show ("56".data).length = 2 from by decide]
  norm_num

/-- C8: the separator rules of `_extract_number`
(transformers.py lines 144-172).  Concretely,
`extract_number("1,234.56") = extract_number("1.234,56") = 1234.56`
(format symmetry).  In general, over cleaned digit strings:
with both separators present the rightmost one acts as the decimal
separator and the other is stripped as a thousands separator
(conjuncts 2 and 3); with only `,` present it acts as the decimal
separator exactly when exactly two digits follow it (conjunct 4), and
as a thousands separator otherwise (conjunct 5). -/
theorem number_format_separator_rules :
    (extract_number ("1,234.56".data) = some ((123456 : ℚ) / 100)
      ∧ extract_number ("1.234,56".data) = some ((123456 : ℚ) / 100))
    ∧ (∀ a b : PyStr,
        (∀ c ∈ a, c.isDigit = true ∨ c = '.') → '.' ∈ a →
        (∀ c ∈ b, c.isDigit = true) →
        extract_number (a ++ ',' :: b)
          = pyFloatParse (pyRemoveChar '.' a ++ '.' :: b))
    ∧ (∀ a b : PyStr,
        (∀ c ∈ a, c.isDigit = true ∨ c = ',') → ',' ∈ a →
        (∀ c ∈ b, c.isDigit = true) →
        extract_number (a ++ '.' :: b)
          = pyFloatParse (pyRemoveChar ',' a ++ '.' :: b))
    ∧ (∀ a b : PyStr,
        (∀ c ∈ a, c.isDigit = true) → (∀ c ∈ b, c.isDigit = true) →
        b.length = 2 →
        extract_number (a ++ ',' :: b) = pyFloatParse (a ++ '.' :: b))
    ∧ (∀ a b : PyStr,
        (∀ c ∈ a, c.isDigit = true ∨ c = ',') →
        (∀ c ∈ b, c.isDigit = true) → b.length ≠ 2 →
        extract_number (a ++ ',' :: b)
          = pyFloatParse (pyRemoveChar ',' a ++ b)) := by
  have hdigComma : (',' : Char).isDigit = false := by decide
  have hdigDot : ('.' : Char).isDigit = false := by decide
  refine ⟨⟨extract_number_sample_us.trans pyFloatParse_sample,
    extract_number_sample_eu.trans pyFloatParse_sample⟩, ?_, ?_, ?_, ?_⟩
  · -- rightmost separator is ',': European branch
    intro a b ha hdot hb
    have hcb : ',' ∉ b := not_mem_of_all_digits hb hdigComma
    have hdb : '.' ∉ b := not_mem_of_all_digits hb hdigDot
    have hca : ',' ∉ a := by
      intro hm
      rcases ha ',' hm with h | h
      · rw [hdigComma] at h; exact Bool.false_ne_true h
      · exact absurd h (by decide)
    have hkeep : ∀ x ∈ a ++ ',' :: b, keepNumChar x = true := by
      intro x hx
      rcases List.mem_append.mp hx with h | h
      · rcases ha x h with h1 | h1
        · simp [keepNumChar, h1]
        · simp [keepNumChar, h1]
      · rcases List.mem_cons.mp h with h1 | h1
        · simp [keepNumChar, h1]
        · simp [keepNumChar, hb x h1]
    have hne : ¬ (a ++ ',' :: b = []) := by simp
    unfold extract_number
    rw [if_neg hne, cleanNumeric_eq_self hkeep]
    unfold normalizeSeparators
    have hmc : ',' ∈ a ++ ',' :: b := by simp
    have hmd : '.' ∈ a ++ ',' :: b := by
      exact List.mem_append.mpr (Or.inl hdot)
    rw [if_pos ⟨hmc, hmd⟩]
    have hr1 : pyRfind ',' (a ++ ',' :: b) = (a.length : ℤ) :=
      pyRfind_append_sep hcb a
    have hr2 : pyRfind '.' (a ++ ',' :: b) = pyRfind '.' a := by
      have hnm : '.' ∉ ',' :: b := by
        intro hm
        rcases List.mem_cons.mp hm with h | h
        · exact absurd h (by decide)
        · exact hdb h
      exact pyRfind_append_not_mem hnm a
    have hlt := pyRfind_lt_length '.' a
    rw [hr1, hr2, if_pos (by omega)]
    have hrm : pyRemoveChar '.' (a ++ ',' :: b)
        = pyRemoveChar '.' a ++ ',' :: b := by
      unfold pyRemoveChar
      rw [List.filter_append, List.filter_cons]
      have h1 : ((',' : Char) != '.') = true := by decide
      rw [if_pos h1]
      rw [show List.filter (fun c => c != '.') b = b from
        pyRemoveChar_not_mem hdb]
    rw [hrm]
    have hca' : ',' ∉ pyRemoveChar '.' a := by
      intro hm
      exact hca (List.mem_of_mem_filter hm)
    unfold pyReplaceCharWith
    rw [List.map_append, List.map_cons]
    rw [show ((if (',' : Char) == ',' then '.' else ',') = '.') from by decide]
    rw [show List.map (fun c => if c == ',' then '.' else c) (pyRemoveChar '.' a)
        = pyRemoveChar '.' a from pyReplaceCharWith_not_mem hca']
    rw [show List.map (fun c => if c == ',' then '.' else c) b = b from
      pyReplaceCharWith_not_mem hcb]
  · -- rightmost separator is '.': US branch
    intro a b ha hcomma hb
    have hcb : ',' ∉ b := not_mem_of_all_digits hb hdigComma
    have hdb : '.' ∉ b := not_mem_of_all_digits hb hdigDot
    have hda : '.' ∉ a := by
      intro hm
      rcases ha '.' hm with h | h
      · rw [hdigDot] at h; exact Bool.false_ne_true h
      · exact absurd h (by decide)
    have hkeep : ∀ x ∈ a ++ '.' :: b, keepNumChar x = true := by
      intro x hx
      rcases List.mem_append.mp hx with h | h
      · rcases ha x h with h1 | h1
        · simp [keepNumChar, h1]
        · simp [keepNumChar, h1]
      · rcases List.mem_cons.mp h with h1 | h1
        · simp [keepNumChar, h1]
        · simp [keepNumChar, hb x h1]
    have hne : ¬ (a ++ '.' :: b = []) := by simp
    unfold extract_number
    rw [if_neg hne, cleanNumeric_eq_self hkeep]
    unfold normalizeSeparators
    have hmc : ',' ∈ a ++ '.' :: b := List.mem_append.mpr (Or.inl hcomma)
    have hmd : '.' ∈ a ++ '.' :: b := by simp
    rw [if_pos ⟨hmc, hmd⟩]
    have hr1 : pyRfind '.' (a ++ '.' :: b) = (a.length : ℤ) :=
      pyRfind_append_sep hdb a
    have hr2 : pyRfind ',' (a ++ '.' :: b) = pyRfind ',' a := by
      have hnm : ',' ∉ '.' :: b := by
        intro hm
        rcases List.mem_cons.mp hm with h | h
        · exact absurd h (by decide)
        · exact hcb h
      exact pyRfind_append_not_mem hnm a
    have hlt := pyRfind_lt_length ',' a
    rw [hr1, hr2, if_neg (by omega)]
    unfold pyRemoveChar
    rw [List.filter_append, List.filter_cons]
    rw [if_pos (show (('.' : Char) != ',') = true from by decide)]
    rw [show List.filter (fun c => c != ',') b = b from
      pyRemoveChar_not_mem hcb]
  · -- only ',' with exactly two trailing digits: decimal comma
    intro a b ha hb hlen
    have hcb : ',' ∉ b := not_mem_of_all_digits hb hdigComma
    have hca : ',' ∉ a := not_mem_of_all_digits ha hdigComma
    have hda : '.' ∉ a := not_mem_of_all_digits ha hdigDot
    have hdb : '.' ∉ b := not_mem_of_all_digits hb hdigDot
    have hkeep : ∀ x ∈ a ++ ',' :: b, keepNumChar x = true := by
      intro x hx
      rcases List.mem_append.mp hx with h | h
      · simp [keepNumChar, ha x h]
      · rcases List.mem_cons.mp h with h1 | h1
        · simp [keepNumChar, h1]
        · simp [keepNumChar, hb x h1]
    have hne : ¬ (a ++ ',' :: b = []) := by simp
    unfold extract_number
    rw [if_neg hne, cleanNumeric_eq_self hkeep]
    unfold normalizeSeparators
    have hmd : '.' ∉ a ++ ',' :: b := by
      intro hm
      rcases List.mem_append.mp hm with h | h
      · exact hda h
      · rcases List.mem_cons.mp h with h1 | h1
        · exact absurd h1 (by decide)
        · exact hdb h1
    rw [if_neg (fun h => hmd h.2)]
    have hmc : ',' ∈ a ++ ',' :: b := by simp
    rw [if_pos hmc]
    rw [pySplitChar_append_sep_last hcb a, if_pos hlen]
    unfold pyReplaceCharWith
    rw [List.map_append, List.map_cons]
    rw [show ((if (',' : Char) == ',' then '.' else ',') = '.') from by decide]
    rw [show List.map (fun c => if c == ',' then '.' else c) a = a from
      pyReplaceCharWith_not_mem hca]
    rw [show List.map (fun c => if c == ',' then '.' else c) b = b from
      pyReplaceCharWith_not_mem hcb]
  · -- only ',' without two trailing digits: thousands separator
    intro a b ha hb hlen
    have hcb : ',' ∉ b := not_mem_of_all_digits hb hdigComma
    have hdb : '.' ∉ b := not_mem_of_all_digits hb hdigDot
    have hda : '.' ∉ a := by
      intro hm
      rcases ha '.' hm with h | h
      · rw [hdigDot] at h; exact Bool.false_ne_true h
      · exact absurd h (by decide)
    have hkeep : ∀ x ∈ a ++ ',' :: b, keepNumChar x = true := by
      intro x hx
      rcases List.mem_append.mp hx with h | h
      · rcases ha x h with h1 | h1
        · simp [keepNumChar, h1]
        · simp [keepNumChar, h1]
      · rcases List.mem_cons.mp h with h1 | h1
        · simp [keepNumChar, h1]
        · simp [keepNumChar, hb x h1]
    have hne : ¬ (a ++ ',' :: b = []) := by simp
    unfold extract_number
    rw [if_neg hne, cleanNumeric_eq_self hkeep]
    unfold normalizeSeparators
    have hmd : '.' ∉ a ++ ',' :: b := by
      intro hm
      rcases List.mem_append.mp hm with h | h
      · exact hda h
      · rcases List.mem_cons.mp h with h1 | h1
        · exact absurd h1 (by decide)
        · exact hdb h1
    rw [if_neg (fun h => hmd h.2)]
    have hmc : ',' ∈ a ++ ',' :: b := by simp
    rw [if_pos hmc]
    rw [pySplitChar_append_sep_last hcb a, if_neg hlen]
    unfold pyRemoveChar
    rw [List.filter_append, List.filter_cons]
    rw [if_neg (show ¬ ((',' : Char) != ',') = true from by decide)]
    rw [show List.filter (fun c => c != ',') b = b from
      pyRemoveChar_not_mem hcb]

end ParserPipeline

namespace ParserPipeline

/-- Witness for C8: each separator rule applied at a concrete input —
European decimal comma after a thousands dot, US decimal dot after a
thousands comma, a lone two-trailing-digit comma read as decimal, and a
lone comma otherwise read as thousands. -/
theorem number_format_separator_rules_witness :
    (extract_number (("1.234".data) ++ ',' :: ("5".data))
      = pyFloatParse (pyRemoveChar '.' ("1.234".data) ++ '.' :: ("5".data)))
    ∧ (extract_number (("1,234".data) ++ '.' :: ("56".data))
      = pyFloatParse (pyRemoveChar ',' ("1,234".data) ++ '.' :: ("56".data)))
    ∧ (extract_number (("12".data) ++ ',' :: ("34".data))
      = pyFloatParse (("12".data) ++ '.' :: ("34".data)))
    ∧ (extract_number (("1,234".data) ++ ',' :: ("567".data))
      = pyFloatParse (pyRemoveChar ',' ("1,234".data) ++ ("567".data))) := by
  refine ⟨?_, ?_, ?_, ?_⟩
  · exact number_format_separator_rules.2.1 _ _ (by decide) (by decide)
      (by decide)
  · exact number_format_separator_rules.2.2.1 _ _ (by decide) (by decide)
      (by decide)
  · exact number_format_separator_rules.2.2.2.1 _ _ (by decide) (by decide)
      (by decide)
  · exact number_format_separator_rules.2.2.2.2 _ _ (by decide) (by decide)
      (by decide)

end ParserPipeline
